import Mathlib

/-!
# Verification of the linear-lite-mcp credential and request-execution layer

Shallow embedding of the core components of the linear-lite-mcp repository:
the query-executor retry wrapper, the token lifecycle manager (`getApiKey`,
`refreshAccessToken`/`performRefresh`), the credential store
(`encrypt`/`decrypt`/`getLinearTokens`), the reference-data cache
(`LinearCache.getOrFetch`), and the name-resolution layer of the domain
operations (`createIssueByName`, `listIssues`, `updateIssueByName`).

External platform facilities (the upstream GraphQL endpoint, WebCrypto,
base64 and UTF-8 codecs) are modelled as parameters constrained by the
contracts stated at the system boundary.
-/

/-! ## Query executor outcomes and the retry wrapper

Modelled from the spec: the implementation of the four-argument
`executeQuery(query, variables, apiKey, options)` retry wrapper (the
`QueryOptions.onTokenRefreshNeeded` handling described in spec section 4.2)
is absent from the source snapshot; only its `QueryOptions` declarations and
its call sites are present.  The definitions below follow the spec's words:
attempt the call; on AuthenticationError, only on the first attempt and only
if a refresh callback is supplied, invoke it once and retry with the new
credential (consuming no rate-limit backoff slot); on RateLimitError, wait
min(server-suggested duration if present else exponential backoff based on
the attempt count, configured maximum) and retry, up to the maximum attempt
count; any other error propagates immediately. -/

/-- Outcome of a single query-executor attempt: success with a payload,
an authentication failure (HTTP 401), a rate-limit failure (HTTP 429,
carrying an optional server-suggested wait in seconds), or any other
failure. -/
inductive QueryOutcome (α : Type) where
  | success (payload : α)
  | authFailure
  | rateLimited (retryAfterSeconds : Option Nat)
  | otherFailure (msg : String)
deriving Repr, DecidableEq

/-- Error classification propagated by the retry wrapper. -/
inductive RetryError where
  | auth
  | rateLimit
  | other (msg : String)
  | fuelExhausted
deriving Repr, DecidableEq

/-- Observable trace of one wrapped call: the final result, how many times
the refresh callback was invoked, and the sequence of rate-limit waits (in
seconds) that were slept. -/
structure RetryTrace (α : Type) where
  result : Except RetryError α
  callbackCalls : Nat
  waits : List Nat
deriving Repr

/-- Modelled from the spec: the recursive core of the retry wrapper.
`call attempt key` is the single-attempt query executor (the network is an
oracle indexed by the rate-limit attempt count and the credential used);
`expBackoff` is the configured exponential backoff; `cb` the optional
refresh callback.  The auth retry keeps the same `attempt` index (it does
not consume a rate-limit backoff slot) and is allowed at most once, tracked
by `authRetried`.  `fuel` only ensures structural termination; it starts at
`maxAttempts + 2`, which the two bounded retry kinds can never exhaust. -/
def retryGo {α : Type} (call : Nat → String → QueryOutcome α)
    (expBackoff : Nat → Nat) (maxAttempts maxWait : Nat)
    (cb : Option (Unit → String)) :
    Nat → Nat → String → Bool → Nat → List Nat → RetryTrace α
  | 0, _, _, _, cbCalls, waits => ⟨.error .fuelExhausted, cbCalls, waits⟩
  | fuel + 1, attempt, key, authRetried, cbCalls, waits =>
    match call attempt key with
    | .success v => ⟨.ok v, cbCalls, waits⟩
    | .authFailure =>
      match cb, authRetried with
      | some f, false =>
        retryGo call expBackoff maxAttempts maxWait cb
          fuel attempt (f ()) true (cbCalls + 1) waits
      | _, _ => ⟨.error .auth, cbCalls, waits⟩
    | .rateLimited hint =>
      if attempt + 1 < maxAttempts then
        let w := min (hint.getD (expBackoff attempt)) maxWait
        retryGo call expBackoff maxAttempts maxWait cb
          fuel (attempt + 1) key authRetried cbCalls (waits ++ [w])
      else ⟨.error .rateLimit, cbCalls, waits⟩
    | .otherFailure m => ⟨.error (.other m), cbCalls, waits⟩

/-- Modelled from the spec: the retry wrapper entry point, starting at
attempt 0 with no auth retry used and no waits accumulated. -/
def executeQueryRetry {α : Type} (call : Nat → String → QueryOutcome α)
    (expBackoff : Nat → Nat) (maxAttempts maxWait : Nat)
    (cb : Option (Unit → String)) (key : String) : RetryTrace α :=
  retryGo call expBackoff maxAttempts maxWait cb (maxAttempts + 2) 0 key false 0 []

/-- C1: for every wrapped call whose first attempt fails with an
authentication failure: with a refresh callback supplied, the callback is
invoked exactly once, the call is retried exactly once with the new
credential, and the overall result is the second attempt's payload; with no
callback supplied, or when the retried attempt fails with authentication
again, the authentication error propagates. -/
theorem retry_auth_refresh_once {α : Type} (call : Nat → String → QueryOutcome α)
    (expBackoff : Nat → Nat) (maxAttempts maxWait : Nat)
    (key : String) (f : Unit → String)
    (h1 : call 0 key = .authFailure) :
    (∀ v : α, call 0 (f ()) = .success v →
      executeQueryRetry call expBackoff maxAttempts maxWait (some f) key
        = ⟨.ok v, 1, []⟩) ∧
    executeQueryRetry call expBackoff maxAttempts maxWait none key
      = ⟨.error .auth, 0, []⟩ ∧
    (call 0 (f ()) = .authFailure →
      executeQueryRetry call expBackoff maxAttempts maxWait (some f) key
        = ⟨.error .auth, 1, []⟩) := by
  refine ⟨fun v h2 => ?_, ?_, fun h2 => ?_⟩ <;>
    simp [executeQueryRetry, retryGo, h1, *]

/-- Single-attempt oracle for the C1 witness: the first credential is
rejected with an authentication failure, the refreshed credential
succeeds. -/
def c1CallOracle : Nat → String → QueryOutcome Nat := fun _ k =>
  if k = "new-token" then .success 7 else .authFailure

theorem retry_auth_refresh_once_witness :
    executeQueryRetry c1CallOracle (fun a => 2 ^ a) 5 60
      (some (fun _ => "new-token")) "old-token" = ⟨.ok 7, 1, []⟩ :=
  (retry_auth_refresh_once c1CallOracle (fun a => 2 ^ a) 5 60 "old-token"
    (fun _ => "new-token") (by decide)).1 7 (by decide)

/-- C2: for every wrapped call whose first attempt fails rate-limited with a
server-suggested wait of `n` seconds, the wrapper waits `min n maxWait`
seconds (the server hint capped by the configured maximum, independent of
the exponential backoff function) and retries; the overall call succeeds
with the retry's payload when the retry succeeds and the maximum attempt
count allows a second attempt, and the rate-limit error propagates when the
attempt budget is exhausted. -/
theorem retry_rate_limit_hint {α : Type} (call : Nat → String → QueryOutcome α)
    (expBackoff : Nat → Nat) (maxAttempts maxWait : Nat)
    (cb : Option (Unit → String)) (key : String) (n : Nat) (v : α)
    (h1 : call 0 key = .rateLimited (some n)) :
    (2 ≤ maxAttempts → call 1 key = .success v →
      executeQueryRetry call expBackoff maxAttempts maxWait cb key
        = ⟨.ok v, 0, [min n maxWait]⟩) ∧
    (maxAttempts ≤ 1 →
      executeQueryRetry call expBackoff maxAttempts maxWait cb key
        = ⟨.error .rateLimit, 0, []⟩) := by
  constructor
  · intro hA h2
    have : 0 + 1 < maxAttempts := by omega
    simp [executeQueryRetry, retryGo, h1, h2, this]
  · intro hA
    have : ¬ (0 + 1 < maxAttempts) := by omega
    simp [executeQueryRetry, retryGo, h1, this]

/-- Single-attempt oracle for the C2 witness: the first attempt is
rate-limited with a 2-second hint, the retry succeeds. -/
def c2CallOracle : Nat → String → QueryOutcome Nat := fun a _ =>
  if a = 0 then .rateLimited (some 2) else .success 42

theorem retry_rate_limit_hint_witness :
    executeQueryRetry c2CallOracle (fun a => 2 ^ a) 5 60 none "key" = ⟨.ok 42, 0, [2]⟩ := by
  simpa using (retry_rate_limit_hint c2CallOracle (fun a => 2 ^ a) 5 60 none "key" 2 42
    (by decide)).1 (by decide) (by decide)

/-! ## Token lifecycle manager: `getApiKey`

Translated from `getApiKey` (and its storage helpers) in `src/src/index.ts`.
The stored credential set (after KV read and decryption) and the credential
set observed after a completed refresh are oracle inputs; the outcome
records the returned value or thrown error, whether `refreshAccessToken`
was invoked, any credential set written back to storage by the API-key
branch, and whether the user-switch cache clear fired.  JavaScript
truthiness is modelled exactly: `0` and the missing value are falsy for the
expiry number, the empty string and the missing value are falsy for token
strings. -/

/-- Stored credential set, as in the `LinearTokens` type of `src/src/index.ts`. -/
structure LinearTokens where
  accessToken : String
  refreshToken : Option String := none
  expiresAt : Option Int := none
deriving Repr, DecidableEq

/-- JavaScript truthiness of an optional number (`undefined` and `0` are falsy). -/
def numTruthy : Option Int → Bool
  | none => false
  | some n => n != 0

/-- JavaScript truthiness of an optional string (`undefined` and `""` are falsy). -/
def strTruthy : Option String → Bool
  | none => false
  | some s => s != ""

/-- JavaScript `a || b` on an optional string `a` and a string default `b`. -/
def jsOrStr : Option String → String → String
  | some s, dflt => if s = "" then dflt else s
  | none, dflt => dflt

/-- The `fiveMinutes` constant of `getApiKey` (milliseconds). -/
def fiveMinutesMs : Int := 5 * 60 * 1000

/-- The far-future expiry added in API-key mode (milliseconds). -/
def oneYearMs : Int := 365 * 24 * 60 * 60 * 1000

/-- The condition `tokens.expiresAt && now >= tokens.expiresAt - fiveMinutes`. -/
def expiryDue (expiresAt : Option Int) (now : Int) : Bool :=
  match expiresAt with
  | none => false
  | some e => e != 0 && decide (e - fiveMinutesMs ≤ now)

/-- Error thrown by `getApiKey` when no authentication context is present. -/
def authRequiredMsg : String := "Authentication required. Please authenticate with Linear."

/-- Error thrown by `getApiKey` when no stored access token is found. -/
def noTokenMsg : String := "No Linear access token found. Please authenticate with Linear."

/-- Error thrown by `getApiKey` on an expired token without a refresh token. -/
def expiredMsg : String := "Access token has expired and no refresh token is available. Please re-authenticate with Linear."

/-- Observable outcome of one `getApiKey` call: the returned credential or
thrown error, whether `refreshAccessToken` was invoked, the credential set
written back by the API-key legacy branch (if any), and whether the cache
was cleared by user-switch detection. -/
structure GetApiKeyOutcome where
  result : Except String String
  refreshInvoked : Bool
  kvWrite : Option LinearTokens
  cacheCleared : Bool
deriving Repr

/-- Translation of `getApiKey` from `src/src/index.ts`.  `tokens` is what
`getLinearTokens` returns; `refreshedTokens` is what `getLinearTokens`
returns after `refreshAccessToken` completes (both oracles).  The branch
structure mirrors the source: missing props; missing/empty access token;
the legacy branch for a falsy `expiresAt` (forced refresh when a refresh
token exists, otherwise a far-future expiry write that falls through to
returning the stored token); the 5-minute expiry-horizon check; and the
plain return of the stored access token. -/
def getApiKey (propsPresent : Bool) (propsUserId : String)
    (currentUserId : Option String) (tokens : Option LinearTokens)
    (refreshedTokens : Option LinearTokens) (now : Int) : GetApiKeyOutcome :=
  if !propsPresent then
    ⟨.error authRequiredMsg, false, none, false⟩
  else
    let cleared :=
      match currentUserId with
      | some u => u != "" && u != propsUserId
      | none => false
    match tokens with
    | none => ⟨.error noTokenMsg, false, none, cleared⟩
    | some t =>
      if t.accessToken = "" then ⟨.error noTokenMsg, false, none, cleared⟩
      else if !(numTruthy t.expiresAt) && strTruthy t.refreshToken then
        ⟨.ok (jsOrStr (refreshedTokens.map (·.accessToken)) t.accessToken), true, none, cleared⟩
      else
        let wrote : Option LinearTokens :=
          if !(numTruthy t.expiresAt) then
            some { t with expiresAt := some (now + oneYearMs) }
          else none
        if expiryDue t.expiresAt now then
          if strTruthy t.refreshToken then
            ⟨.ok (jsOrStr (refreshedTokens.map (·.accessToken)) t.accessToken), true, wrote, cleared⟩
          else ⟨.error expiredMsg, false, wrote, cleared⟩
        else ⟨.ok t.accessToken, false, wrote, cleared⟩

/-- C3 (amended): for every stored credential set with a non-empty access
credential whose expiry instant is strictly more than 5 minutes after the
current (nonnegative epoch) time, `getApiKey` returns the stored access
credential unchanged and does not invoke the token refresh procedure. -/
theorem getApiKey_fresh_token_no_refresh
    (propsUserId : String) (currentUserId : Option String)
    (refreshedTokens : Option LinearTokens) (t : LinearTokens) (e now : Int)
    (hacc : t.accessToken ≠ "") (hexp : t.expiresAt = some e)
    (hfresh : now + fiveMinutesMs < e) (hnow : 0 ≤ now) :
    (getApiKey true propsUserId currentUserId (some t) refreshedTokens now).result
      = .ok t.accessToken ∧
    (getApiKey true propsUserId currentUserId (some t) refreshedTokens now).refreshInvoked
      = false := by
  have h5 : fiveMinutesMs = 300000 := by decide
  have he0 : e ≠ 0 := by rw [h5] at hfresh; omega
  have hnum : numTruthy t.expiresAt = true := by simp [numTruthy, hexp, he0]
  have hdue : expiryDue t.expiresAt now = false := by
    simp only [expiryDue, hexp]
    rw [h5] at hfresh ⊢
    simp only [Bool.and_eq_false_iff]
    right
    simpa using by omega
  constructor <;> simp [getApiKey, hnum, hdue, hacc]

/-- C3 counterexample: a stored credential set with an empty access
credential and an expiry far in the future.  The claim as stated demands
that the stored access credential (the empty string) be returned, but
`getApiKey` throws `"No Linear access token found..."` because the empty
string is falsy in the `!tokens?.accessToken` guard. -/
theorem getApiKey_fresh_empty_access_counterexample :
    (getApiKey true "u" none (some ⟨"", none, some 1000000⟩) none 0).result
      = .error noTokenMsg ∧
    (getApiKey true "u" none (some ⟨"", none, some 1000000⟩) none 0).result
      ≠ .ok "" := by
  constructor
  · rfl
  · simp [getApiKey]

theorem getApiKey_fresh_token_no_refresh_witness :
    (getApiKey true "user-1" none (some ⟨"tok", none, some 1000000⟩) none 0).result
      = .ok "tok" ∧
    (getApiKey true "user-1" none (some ⟨"tok", none, some 1000000⟩) none 0).refreshInvoked
      = false :=
  getApiKey_fresh_token_no_refresh "user-1" none none ⟨"tok", none, some 1000000⟩
    1000000 0 (by decide) rfl (by decide) (by decide)

/-- C4 (amended): for every stored credential set with a nonzero past
expiry instant and no refresh credential, `getApiKey` fails with an
authentication error demanding (re-)authentication and never invokes the
refresh procedure, hence issues no outbound network call. -/
theorem getApiKey_expired_no_refresh_token
    (propsUserId : String) (currentUserId : Option String)
    (refreshedTokens : Option LinearTokens) (t : LinearTokens) (e now : Int)
    (hexp : t.expiresAt = some e) (he0 : e ≠ 0) (hpast : e ≤ now)
    (hrt : t.refreshToken = none) :
    (getApiKey true propsUserId currentUserId (some t) refreshedTokens now).refreshInvoked
      = false ∧
    ((getApiKey true propsUserId currentUserId (some t) refreshedTokens now).result
        = .error expiredMsg ∨
      (getApiKey true propsUserId currentUserId (some t) refreshedTokens now).result
        = .error noTokenMsg) := by
  by_cases hacc : t.accessToken = ""
  · constructor
    · simp [getApiKey, hacc]
    · right; simp [getApiKey, hacc]
  · have hnum : numTruthy t.expiresAt = true := by simp [numTruthy, hexp, he0]
    have hdue : expiryDue t.expiresAt now = true := by
      have h5 : fiveMinutesMs = 300000 := by decide
      simp [expiryDue, hexp, he0, h5]
      omega
    constructor
    · simp [getApiKey, hacc, hnum, hdue, hrt, strTruthy]
    · left; simp [getApiKey, hacc, hnum, hdue, hrt, strTruthy]

/-- C4 counterexample: a stored credential set whose expiry instant is `0`
(a past instant) with no refresh credential.  The claim as stated demands
an authentication error, but `0` is falsy in the `!tokens.expiresAt` legacy
guard, so `getApiKey` writes a far-future expiry and returns the stored
access token successfully. -/
theorem getApiKey_zero_expiry_counterexample :
    (getApiKey true "u" none (some ⟨"tok", none, some 0⟩) none 1000000).result
      = .ok "tok" ∧
    (getApiKey true "u" none (some ⟨"tok", none, some 0⟩) none 1000000).refreshInvoked
      = false := by
  constructor <;> rfl

theorem getApiKey_expired_no_refresh_token_witness :
    (getApiKey true "user-1" none (some ⟨"tok", none, some 5⟩) none 1000000).refreshInvoked
      = false ∧
    ((getApiKey true "user-1" none (some ⟨"tok", none, some 5⟩) none 1000000).result
        = .error expiredMsg ∨
      (getApiKey true "user-1" none (some ⟨"tok", none, some 5⟩) none 1000000).result
        = .error noTokenMsg) :=
  getApiKey_expired_no_refresh_token "user-1" none none ⟨"tok", none, some 5⟩
    5 1000000 rfl (by decide) (by decide) rfl

/-! ## Single-flight refresh coordination

Translated from `refreshAccessToken` and `performRefresh` in
`src/src/index.ts`.  JavaScript is single-threaded, so the calls of one
event-loop tick run their synchronous prefixes sequentially.  The
synchronous prefix of `refreshAccessToken` either observes a non-null
`this.refreshPromise` and returns it to be awaited, or starts
`performRefresh()` (assigning the new promise to `this.refreshPromise`
before any caller can run again) and awaits it.  `performRefresh` issues
exactly one POST to the token endpoint when a refresh token is stored and
none otherwise (it throws before the fetch).  The `finally` block clears
the stored promise when the refresh completes or fails. -/

/-- Per-agent state relevant to refresh deduplication: the stored in-flight
promise (by identity), a fresh-promise counter, and how many
`performRefresh` executions have been started. -/
structure AgentRefreshState where
  refreshPromise : Option Nat := none
  nextPromiseId : Nat := 0
  performRefreshStarts : Nat := 0
deriving Repr, DecidableEq

/-- Synchronous prefix of one `refreshAccessToken` call: reuse the stored
in-flight promise if present, otherwise start `performRefresh` and store
its promise.  Returns the promise the caller awaits. -/
def refreshAccessTokenStep (s : AgentRefreshState) : AgentRefreshState × Nat :=
  match s.refreshPromise with
  | some p => (s, p)
  | none =>
    (⟨some s.nextPromiseId, s.nextPromiseId + 1, s.performRefreshStarts + 1⟩,
      s.nextPromiseId)

/-- Run the synchronous prefixes of `k` concurrent `refreshAccessToken`
calls of one event-loop tick in order, collecting the promise each caller
awaits. -/
def runTick (s : AgentRefreshState) : Nat → AgentRefreshState × List Nat
  | 0 => (s, [])
  | k + 1 =>
    let step := refreshAccessTokenStep s
    let rest := runTick step.1 k
    (rest.1, step.2 :: rest.2)

/-- The `finally` block of `refreshAccessToken`: the stored promise is
cleared when the in-flight refresh completes or fails. -/
def settleRefresh (s : AgentRefreshState) : AgentRefreshState :=
  { s with refreshPromise := none }

/-- Number of outbound token-exchange requests one `performRefresh`
execution issues: one POST to the token endpoint when a refresh token is
stored, none otherwise (it throws before the fetch). -/
def performRefreshExchanges (tokens : Option LinearTokens) : Nat :=
  match tokens with
  | none => 0
  | some t => if strTruthy t.refreshToken then 1 else 0

/-- A tick that begins with an in-flight promise stored neither starts a new
`performRefresh` nor changes the state: every caller awaits the stored
promise. -/
theorem runTick_stable (p : Nat) (s : AgentRefreshState) (k : Nat)
    (h : s.refreshPromise = some p) :
    runTick s k = (s, List.replicate k p) := by
  induction k with
  | zero => simp [runTick]
  | succ j ih =>
    simp [runTick, refreshAccessTokenStep, h, ih, List.replicate_succ]

/-- C5: for every group of `k ≥ 1` concurrent refresh calls on one agent
instance within one event-loop tick, starting with no in-flight refresh and
a stored refresh credential, exactly one `performRefresh` execution is
started — hence exactly one outbound token-exchange request is issued — all
`k` callers await the same stored in-flight promise, and the stored promise
is cleared when the refresh settles (completes or fails). -/
theorem refresh_single_flight (s0 : AgentRefreshState) (k : Nat) (t : LinearTokens)
    (hk : 1 ≤ k) (h0 : s0.refreshPromise = none)
    (hrt : strTruthy t.refreshToken = true) :
    (runTick s0 k).1.performRefreshStarts = s0.performRefreshStarts + 1 ∧
    ((runTick s0 k).1.performRefreshStarts - s0.performRefreshStarts)
        * performRefreshExchanges (some t) = 1 ∧
    (runTick s0 k).2 = List.replicate k s0.nextPromiseId ∧
    (runTick s0 k).1.refreshPromise = some s0.nextPromiseId ∧
    (settleRefresh (runTick s0 k).1).refreshPromise = none := by
  obtain ⟨j, rfl⟩ : ∃ j, k = j + 1 := ⟨k - 1, by omega⟩
  have hstep : refreshAccessTokenStep s0 =
      (⟨some s0.nextPromiseId, s0.nextPromiseId + 1, s0.performRefreshStarts + 1⟩,
        s0.nextPromiseId) := by
    simp [refreshAccessTokenStep, h0]
  have hrest := runTick_stable s0.nextPromiseId
    ⟨some s0.nextPromiseId, s0.nextPromiseId + 1, s0.performRefreshStarts + 1⟩ j rfl
  refine ⟨?_, ?_, ?_, ?_, ?_⟩ <;>
    simp [runTick, hstep, hrest, settleRefresh, performRefreshExchanges, hrt,
      List.replicate_succ]

theorem refresh_single_flight_witness :
    (runTick ⟨none, 0, 0⟩ 3).1.performRefreshStarts = 0 + 1 ∧
    ((runTick ⟨none, 0, 0⟩ 3).1.performRefreshStarts - 0)
        * performRefreshExchanges (some ⟨"tok", some "rt", some 5⟩) = 1 ∧
    (runTick ⟨none, 0, 0⟩ 3).2 = List.replicate 3 0 ∧
    (runTick ⟨none, 0, 0⟩ 3).1.refreshPromise = some 0 ∧
    (settleRefresh (runTick ⟨none, 0, 0⟩ 3).1).refreshPromise = none :=
  refresh_single_flight ⟨none, 0, 0⟩ 3 ⟨"tok", some "rt", some 5⟩
    (by decide) rfl (by decide)

/-! ## Reference-data cache

Translated from `LinearCache` in `src/src/linear/client.ts`.  The private
`Map` is an association list (newest binding first); `getOrFetch` is given
the current time and the value the fetcher would produce, and reports in
its third component whether the fetcher was invoked. -/

/-- Cached payload with its absolute expiry instant, as in `CacheEntry`. -/
structure CacheEntry (α : Type) where
  data : α
  expiresAt : Int
deriving Repr, DecidableEq

/-- `Map.get` of the cache contents. -/
def cacheGet {α : Type} (c : List (String × CacheEntry α)) (key : String) :
    Option (CacheEntry α) :=
  (c.find? (fun e => e.1 == key)).map (·.2)

/-- The `defaultTTL` of `LinearCache`: 5 minutes in milliseconds. -/
def defaultTTL : Int := 5 * 60 * 1000

/-- `LinearCache.set`: store `data` under `key` with expiry
`now + (ttl ?? defaultTTL)`. -/
def cacheSet {α : Type} (c : List (String × CacheEntry α)) (key : String)
    (data : α) (now : Int) (ttl : Option Int) : List (String × CacheEntry α) :=
  (key, ⟨data, now + ttl.getD defaultTTL⟩) :: c.filter (fun e => e.1 != key)

/-- `LinearCache.getOrFetch`: return the cached data when a stored entry's
expiry is still in the future, otherwise invoke the fetcher (producing
`fetched`), store its result and return it.  The third component records
whether the fetcher was invoked. -/
def getOrFetch {α : Type} (c : List (String × CacheEntry α)) (key : String)
    (now : Int) (fetched : α) (ttl : Option Int) :
    α × List (String × CacheEntry α) × Bool :=
  match cacheGet c key with
  | some entry =>
    if now < entry.expiresAt then (entry.data, c, false)
    else (fetched, cacheSet c key fetched now ttl, true)
  | none => (fetched, cacheSet c key fetched now ttl, true)

/-- Reading back a freshly stored key yields the stored entry. -/
theorem cacheGet_cacheSet {α : Type} (c : List (String × CacheEntry α))
    (key : String) (d : α) (now : Int) (ttl : Option Int) :
    cacheGet (cacheSet c key d now ttl) key = some ⟨d, now + ttl.getD defaultTTL⟩ := by
  simp [cacheGet, cacheSet, List.find?]

/-- C7: for every cache key: a first `getOrFetch` with no valid entry
invokes the fetcher and stores its value with expiry `now + defaultTTL`; a
second call within the TTL window does not invoke the fetcher and returns
the same value; a third call after the TTL has elapsed invokes the fetcher
again and stores the new result with expiry `now + ttl`. -/
theorem cache_getOrFetch_ttl {α : Type} (c0 : List (String × CacheEntry α))
    (key : String) (t1 t2 t3 : Int) (v1 v2 w : α)
    (h0 : ∀ e, cacheGet c0 key = some e → e.expiresAt ≤ t1)
    (h2 : t2 < t1 + defaultTTL) (h3 : t1 + defaultTTL ≤ t3) :
    getOrFetch c0 key t1 v1 none = (v1, cacheSet c0 key v1 t1 none, true) ∧
    getOrFetch (cacheSet c0 key v1 t1 none) key t2 w none
      = (v1, cacheSet c0 key v1 t1 none, false) ∧
    getOrFetch (cacheSet c0 key v1 t1 none) key t3 v2 none
      = (v2, cacheSet (cacheSet c0 key v1 t1 none) key v2 t3 none, true) ∧
    cacheGet (cacheSet (cacheSet c0 key v1 t1 none) key v2 t3 none) key
      = some ⟨v2, t3 + defaultTTL⟩ := by
  have hset := cacheGet_cacheSet c0 key v1 t1 none
  refine ⟨?_, ?_, ?_, ?_⟩
  · match hget : cacheGet c0 key with
    | none => simp [getOrFetch, hget]
    | some e =>
      have := h0 e hget
      simp [getOrFetch, hget]
      omega
  · simp [getOrFetch, hset]
    omega
  · simp [getOrFetch, hset]
    omega
  · exact cacheGet_cacheSet _ key v2 t3 none

theorem cache_getOrFetch_ttl_witness :
    getOrFetch ([] : List (String × CacheEntry Nat)) "teams" 0 11 none
      = (11, cacheSet [] "teams" 11 0 none, true) ∧
    getOrFetch (cacheSet [] "teams" 11 0 none) "teams" 100 22 none
      = (11, cacheSet [] "teams" 11 0 none, false) ∧
    getOrFetch (cacheSet [] "teams" 11 0 none) "teams" 300000 22 none
      = (22, cacheSet (cacheSet [] "teams" 11 0 none) "teams" 22 300000 none, true) ∧
    cacheGet (cacheSet (cacheSet [] "teams" 11 0 none) "teams" 22 300000 none) "teams"
      = some ⟨22, 300000 + defaultTTL⟩ :=
  cache_getOrFetch_ttl [] "teams" 0 100 300000 11 22 22
    (fun e he => by simp [cacheGet] at he) (by decide) (by decide)

/-! ## Name resolution in the domain operations

Translated from `createIssueByName` and `updateIssueByName` in
`src/src/linear/index.ts`.  The team list is the (cached) `listTeams`
response; resolution scans it with `find` for an exact match. -/

/-- Reference record for a team, as in `Team` of `src/src/linear/teams.ts`. -/
structure Team where
  id : String
  name : String
  key : String
deriving Repr, DecidableEq

/-- Step 1 of `createIssueByName`: resolve the team name to its id with
`teams.find((t) => t.name === input.teamName)`, failing with
`"Team not found: <name>"` when no record matches. -/
def createIssueResolveTeam (teams : List Team) (teamName : String) : Except String String :=
  match teams.find? (fun t => t.name == teamName) with
  | some t => .ok t.id
  | none => .error ("Team not found: " ++ teamName)

/-- C8: for every name-resolution lookup over a reference list, if some
record's name equals the given name exactly then resolution succeeds with a
matching record's internal id, and if no record's name matches then the
operation fails with a NotFound error whose message names the missing
resource (the message is the literal prefix followed by the looked-up
name). -/
theorem resolve_team_name (teams : List Team) (n : String) :
    ((∃ t ∈ teams, t.name = n) →
      ∃ t ∈ teams, t.name = n ∧ createIssueResolveTeam teams n = .ok t.id) ∧
    ((∀ t ∈ teams, t.name ≠ n) →
      createIssueResolveTeam teams n = .error ("Team not found: " ++ n)) := by
  constructor
  · rintro ⟨t, ht, hn⟩
    match hfind : teams.find? (fun t => t.name == n) with
    | some u =>
      refine ⟨u, List.mem_of_find?_eq_some hfind, ?_, ?_⟩
      · have := List.find?_some hfind
        simpa using this
      · simp [createIssueResolveTeam, hfind]
    | none =>
      exfalso
      have := List.find?_eq_none.mp hfind t ht
      simp [hn] at this
  · intro h
    have hfind : teams.find? (fun t => t.name == n) = none := by
      apply List.find?_eq_none.mpr
      intro t ht
      simpa using h t ht
    simp [createIssueResolveTeam, hfind]

/-- Reference list for the C8 witness. -/
def productTeams : List Team := [⟨"T1", "Product", "PRD"⟩]

theorem resolve_team_name_witness :
    (∃ t ∈ productTeams, t.name = "Product" ∧
      createIssueResolveTeam productTeams "Product" = .ok t.id) ∧
    createIssueResolveTeam productTeams "Nonexistent"
      = .error ("Team not found: " ++ "Nonexistent") := by
  constructor
  · exact (resolve_team_name productTeams "Product").1
      ⟨⟨"T1", "Product", "PRD"⟩, by simp [productTeams]⟩
  · exact (resolve_team_name productTeams "Nonexistent").2 (by decide)

/-- Step 1 of `updateIssueByName`: `input.identifier.split("-")[0]`, the
part of the identifier before the first dash. -/
def teamKeyOfIdentifier (identifier : String) : String :=
  ⟨identifier.data.takeWhile (fun c => c != '-')⟩

/-- Observable trace of one `updateIssueByName` call, projected onto the
claim: the overall result and the issue-directed requests (the `GetIssueId`
query and the `issueUpdate` mutation) issued after the team lookup.  The
issue id returned by the `GetIssueId` query and the upstream success flag
are oracles; the optional name-resolution lookups of step 3 touch
reference lists, not the issue, and are not recorded. -/
structure UpdateIssueTrace where
  result : Except String Bool
  issueRequests : List String
deriving Repr

/-- Translation of `updateIssueByName` from `src/src/linear/index.ts`,
projected onto its control flow: derive the team key from the identifier,
match it against `t.key` over the `listTeams` response, and only on a match
proceed to the `GetIssueId` query and the `issueUpdate` mutation. -/
def updateIssueByNameModel (teams : List Team) (identifier : String)
    (issueId : String) (updateSuccess : Bool) : UpdateIssueTrace :=
  let teamKey := teamKeyOfIdentifier identifier
  match teams.find? (fun t => t.key == teamKey) with
  | none => ⟨.error ("Team not found for identifier: " ++ identifier), []⟩
  | some _t => ⟨.ok updateSuccess, ["GetIssueId " ++ identifier, "UpdateIssue " ++ issueId]⟩

/-- C10: for every `updateIssueByName` call, the team is derived from the
identifier's prefix before the first dash and matched against team keys; if
no team's key equals that prefix the call fails with an error naming the
identifier and no issue lookup or update request is issued, and if some
team's key matches the call proceeds. -/
theorem updateIssue_team_from_identifier_key (teams : List Team)
    (identifier issueId : String) (u : Bool) :
    ((∀ t ∈ teams, t.key ≠ teamKeyOfIdentifier identifier) →
      updateIssueByNameModel teams identifier issueId u
        = ⟨.error ("Team not found for identifier: " ++ identifier), []⟩) ∧
    ((∃ t ∈ teams, t.key = teamKeyOfIdentifier identifier) →
      (updateIssueByNameModel teams identifier issueId u).result = .ok u) := by
  constructor
  · intro h
    have hfind : teams.find? (fun t => t.key == teamKeyOfIdentifier identifier) = none := by
      apply List.find?_eq_none.mpr
      intro t ht
      simpa using h t ht
    simp [updateIssueByNameModel, hfind]
  · rintro ⟨t, ht, hk⟩
    match hfind : teams.find? (fun t => t.key == teamKeyOfIdentifier identifier) with
    | some u' => simp [updateIssueByNameModel, hfind]
    | none =>
      exfalso
      have := List.find?_eq_none.mp hfind t ht
      simp [hk] at this

/-- Reference list for the C10 witness: a team whose *name* equals the
identifier prefix but whose key does not, so key-based matching fails. -/
def engTeams : List Team := [⟨"T9", "ENG", "PROD"⟩]

theorem updateIssue_team_from_identifier_key_witness :
    updateIssueByNameModel engTeams "ENG-42" "uuid-1" true
      = ⟨.error ("Team not found for identifier: " ++ "ENG-42"), []⟩ ∧
    (updateIssueByNameModel [⟨"T9", "Engineering", "ENG"⟩] "ENG-42" "uuid-1" true).result
      = .ok true := by
  constructor
  · exact (updateIssue_team_from_identifier_key engTeams "ENG-42" "uuid-1" true).1
      (by decide)
  · exact (updateIssue_team_from_identifier_key [⟨"T9", "Engineering", "ENG"⟩]
      "ENG-42" "uuid-1" true).2 (by decide)

/-! ## List-issues default filtering

Translated from `listIssues` in `src/src/linear/index.ts`: the function
builds a GraphQL `IssueFilter` object (team/assignee/state-name/priority/
updatedAt clauses under JavaScript truthiness, a `state.type nin` clause
from the `includeCompleted`/`includeBacklog` flags, and an `or` text-search
clause), sends it upstream, and maps the nodes to the flattened output.
The upstream evaluation of the filter over the issue collection is
modelled from the spec's upstream-API boundary: an issue is returned iff it
satisfies every clause present in the filter. -/

/-- Upstream issue as the query selects it, together with the
workflow-state type the `nin` clause filters on. -/
structure IssueRecord where
  identifier : String
  title : String
  description : String
  stateName : String
  stateType : String
  teamId : String
  assigneeId : Option String
  priority : Nat
  projectName : Option String
  dueDate : Option String
  updatedAt : String
deriving Repr, DecidableEq

/-- The optional `filter` parameter of `listIssues`. -/
structure ListIssuesFilterInput where
  teamId : Option String := none
  assigneeId : Option String := none
  state : Option String := none
  priority : Option Nat := none
  includeCompleted : Option Bool := none
  includeBacklog : Option Bool := none
  updatedAt : Option String := none
deriving Repr

/-- The `filterObj` that `listIssues` builds and sends upstream. -/
structure IssueFilterObj where
  teamEq : Option String := none
  assigneeEq : Option String := none
  stateNameEq : Option String := none
  priorityEq : Option Nat := none
  updatedAtGte : Option String := none
  stateTypeNin : List String := []
  orContains : Option String := none
deriving Repr, DecidableEq

/-- JavaScript truthiness guard on an optional string (`if (x)` treats
`undefined` and `""` as absent). -/
def jsOptStr : Option String → Option String
  | some s => if s = "" then none else some s
  | none => none

/-- Construction of `filterObj` from the `listIssues` arguments: each
clause is added under the source's truthiness guards; the excluded state
types are `completed` and `canceled` unless `includeCompleted` is truthy,
plus `backlog` unless `includeBacklog` is truthy; a truthy text query adds
the `or` clause. -/
def buildListIssuesFilter (query : Option String)
    (filter : Option ListIssuesFilterInput) : IssueFilterObj :=
  { teamEq := jsOptStr (filter.bind (·.teamId))
    assigneeEq := jsOptStr (filter.bind (·.assigneeId))
    stateNameEq := jsOptStr (filter.bind (·.state))
    priorityEq := filter.bind (·.priority)
    updatedAtGte := jsOptStr (filter.bind (·.updatedAt))
    stateTypeNin :=
      (if filter.bind (·.includeCompleted) ≠ some true then
        ["completed", "canceled"] else [])
        ++ (if filter.bind (·.includeBacklog) ≠ some true then ["backlog"] else [])
    orContains := jsOptStr query }

/-- Contiguous-subsequence test used to model `containsIgnoreCase`. -/
def containsSeq {α : Type} [BEq α] : List α → List α → Bool
  | needle, [] => needle.isEmpty
  | needle, c :: rest => needle.isPrefixOf (c :: rest) || containsSeq needle rest

/-- Case-insensitive substring test (`containsIgnoreCase`). -/
def containsCI (hay needle : String) : Bool :=
  containsSeq needle.toLower.data hay.toLower.data

/-- Modelled from the spec: upstream evaluation of the filter object on one
issue — the conjunction of the clauses present.  `nin` keeps an issue iff
its state type is not among the excluded types. -/
def issueMatches (fo : IssueFilterObj) (i : IssueRecord) : Bool :=
  (match fo.teamEq with | none => true | some v => i.teamId == v) &&
  (match fo.assigneeEq with | none => true | some v => i.assigneeId == some v) &&
  (match fo.stateNameEq with | none => true | some v => i.stateName == v) &&
  (match fo.priorityEq with | none => true | some v => i.priority == v) &&
  (match fo.updatedAtGte with | none => true | some v => decide (v ≤ i.updatedAt)) &&
  !(fo.stateTypeNin.contains i.stateType) &&
  (match fo.orContains with
    | none => true
    | some q => containsCI i.title q || containsCI i.description q)

/-- Flattened output row of `listIssues`. -/
structure IssueOut where
  identifier : String
  title : String
  state : String
  priority : Nat
  projectName : Option String
  dueDate : Option String
deriving Repr, DecidableEq

/-- The node-to-output mapping of `listIssues`
(`projectName: issue.project?.name || null`). -/
def issueToOut (i : IssueRecord) : IssueOut :=
  ⟨i.identifier, i.title, i.stateName, i.priority, jsOptStr i.projectName, i.dueDate⟩

/-- `listIssues` end to end: build the filter, let the upstream apply it to
its issue collection, and map the nodes to the flattened output. -/
def listIssuesModel (issues : List IssueRecord) (query : Option String)
    (filter : Option ListIssuesFilterInput) : List IssueOut :=
  (issues.filter (issueMatches (buildListIssuesFilter query filter))).map issueToOut

/-- The default flags of the `issues_list` tool:
`includeCompleted = false`, `includeBacklog = false`. -/
def defaultListFilter : ListIssuesFilterInput :=
  { includeCompleted := some false, includeBacklog := some false }

/-- C9: with the default flags, `listIssues` returns exactly the issues
whose workflow-state type is none of `completed`, `canceled`, `backlog`;
setting `includeCompleted` removes `completed`/`canceled` from the excluded
types, setting `includeBacklog` removes `backlog`, and setting both leaves
no state-type exclusion. -/
theorem listIssues_default_excludes (issues : List IssueRecord) :
    listIssuesModel issues none (some defaultListFilter)
      = (issues.filter
          (fun i => !(["completed", "canceled", "backlog"].contains i.stateType))).map
            issueToOut ∧
    (buildListIssuesFilter none
      (some { defaultListFilter with includeCompleted := some true })).stateTypeNin
        = ["backlog"] ∧
    (buildListIssuesFilter none
      (some { defaultListFilter with includeBacklog := some true })).stateTypeNin
        = ["completed", "canceled"] ∧
    (buildListIssuesFilter none
      (some { includeCompleted := some true, includeBacklog := some true })).stateTypeNin
        = [] := by
  have hfo : buildListIssuesFilter none (some defaultListFilter)
      = { stateTypeNin := ["completed", "canceled", "backlog"] } := by rfl
  refine ⟨?_, rfl, rfl, rfl⟩
  unfold listIssuesModel
  rw [hfo]
  congr 1
  apply List.filter_congr
  intro i _
  simp [issueMatches]

/-- The spec's list-issues scenario: of four issues with state types
`completed`, `canceled`, `backlog` and `started`, the default call returns
only the `started` issue. -/
def scenarioIssues : List IssueRecord :=
  [⟨"T-1", "done", "", "Done", "completed", "T", none, 2, none, none, "2024"⟩,
   ⟨"T-2", "dropped", "", "Canceled", "canceled", "T", none, 2, none, none, "2024"⟩,
   ⟨"T-3", "later", "", "Backlog", "backlog", "T", none, 2, none, none, "2024"⟩,
   ⟨"T-4", "doing", "", "In Progress", "started", "T", none, 2, none, none, "2024"⟩]

/-- Concrete evaluation of the spec scenario on the embedded `listIssues`. -/
theorem listIssues_scenario_started_only :
    listIssuesModel scenarioIssues none (some defaultListFilter)
      = [⟨"T-4", "doing", "In Progress", 2, none, none⟩] := by
  rfl

/-! ## Credential store encryption

Translated from `encrypt` and `decrypt` in the crypto module and
`getLinearTokens` in `src/src/index.ts`.  The WebCrypto primitives
(SHA-256 key derivation, AES-GCM), the base64 transport codec
(`btoa`/`atob`) and the UTF-8 codec (`TextEncoder`/`TextDecoder`) are
platform facilities outside the repository; they are bundled as a
parameter and constrained in the theorem by their standard contracts
(codec roundtrips, AEAD correctness, AEAD rejection under a different key,
distinct digests for the two keys at hand).  Bytes are `Nat`s; a failed
`crypto.subtle.decrypt` is `none`. -/

/-- Platform cryptography and codecs used by `encrypt`/`decrypt`. -/
structure PlatformCrypto where
  sha256 : String → List Nat
  aesGcmEncrypt : List Nat → List Nat → List Nat → List Nat
  aesGcmDecrypt : List Nat → List Nat → List Nat → Option (List Nat)
  utf8Encode : String → List Nat
  utf8Decode : List Nat → String
  b64Encode : List Nat → String
  b64Decode : String → List Nat

/-- `encrypt(plaintext, encryptionKey)` with the random 12-byte IV made
explicit: derive the AES key by hashing the configured secret, encrypt the
UTF-8 bytes, and base64-encode IV ++ ciphertext. -/
def encrypt (E : PlatformCrypto) (plaintext encryptionKey : String)
    (iv : List Nat) : String :=
  E.b64Encode (iv ++ E.aesGcmEncrypt (E.sha256 encryptionKey) iv (E.utf8Encode plaintext))

/-- `decrypt(encrypted, encryptionKey)`: base64-decode, split the first 12
bytes as the IV and the rest as the ciphertext, decrypt with the derived
key and decode UTF-8.  `none` models the exception a failed authenticated
decryption throws. -/
def decrypt (E : PlatformCrypto) (encrypted encryptionKey : String) : Option String :=
  (E.aesGcmDecrypt (E.sha256 encryptionKey) ((E.b64Decode encrypted).take 12)
      ((E.b64Decode encrypted).drop 12)).map E.utf8Decode

/-- `getLinearTokens` of `src/src/index.ts`, from the stored blob onward:
a missing blob, a failed decryption (the `catch` branch) or a failed parse
all yield `null` rather than propagating an exception. -/
def getLinearTokensModel (E : PlatformCrypto) (parse : String → Option LinearTokens)
    (stored : Option String) (encryptionKey : String) : Option LinearTokens :=
  match stored with
  | none => none
  | some enc =>
    match decrypt E enc encryptionKey with
    | none => none
    | some s => parse s

/-- C6: for every credential JSON string `s`, key `k` and 12-byte IV,
decrypting `encrypt s k` with `k` yields `s` byte-identically; for a
different key `k'` (with a distinct derived digest) decryption fails, and
`getLinearTokens` treats that failure as an absent credential (`none`)
rather than propagating it.  The platform hypotheses are the codec
roundtrips and the AEAD correctness/rejection contracts. -/
theorem encrypt_decrypt_roundtrip (E : PlatformCrypto)
    (parse : String → Option LinearTokens)
    (s k k' : String) (iv : List Nat)
    (hb64 : ∀ l, E.b64Decode (E.b64Encode l) = l)
    (hutf8 : ∀ t, E.utf8Decode (E.utf8Encode t) = t)
    (hiv : iv.length = 12)
    (haead : ∀ key iv m, E.aesGcmDecrypt key iv (E.aesGcmEncrypt key iv m) = some m)
    (hwrong : ∀ key key' iv m, key ≠ key' →
      E.aesGcmDecrypt key' iv (E.aesGcmEncrypt key iv m) = none)
    (hkeys : E.sha256 k ≠ E.sha256 k') :
    decrypt E (encrypt E s k iv) k = some s ∧
    decrypt E (encrypt E s k iv) k' = none ∧
    getLinearTokensModel E parse (some (encrypt E s k iv)) k' = none := by
  have hwrongd : decrypt E (encrypt E s k iv) k' = none := by
    unfold decrypt encrypt
    rw [hb64, List.take_left' hiv, List.drop_left' hiv, hwrong _ _ _ _ hkeys]
    rfl
  refine ⟨?_, hwrongd, ?_⟩
  · unfold decrypt encrypt
    rw [hb64, List.take_left' hiv, List.drop_left' hiv, haead]
    simp [hutf8]
  · simp [getLinearTokensModel, hwrongd]

/-! Concrete platform instantiation for the C6 witness: an injective toy
hash, a toy AEAD that prepends the key (so decryption under any other key
is rejected), and injective toy codecs with proved roundtrips. -/

/-- Toy digest for the witness: the code points of the key string. -/
def toyHash (s : String) : List Nat := s.data.map Char.toNat

/-- Toy AEAD encryption for the witness: prepend the key's length and the
key to the message. -/
def toyAeadEnc (key _iv m : List Nat) : List Nat := key.length :: key ++ m

/-- Toy AEAD decryption for the witness: succeed exactly when the stored
length-tagged key matches the supplied key. -/
def toyAeadDec (key _iv c : List Nat) : Option (List Nat) :=
  if c.take (key.length + 1) = key.length :: key then some (c.drop (key.length + 1))
  else none

/-- The toy AEAD decrypts its own ciphertexts. -/
theorem toyAead_roundtrip (key iv m : List Nat) :
    toyAeadDec key iv (toyAeadEnc key iv m) = some m := by
  unfold toyAeadEnc toyAeadDec
  rw [List.take_left' (by simp), if_pos rfl, List.drop_left' (by simp)]

/-- The toy AEAD rejects ciphertexts produced under a different key. -/
theorem toyAead_wrongKey (key key' iv m : List Nat) (h : key ≠ key') :
    toyAeadDec key' iv (toyAeadEnc key iv m) = none := by
  unfold toyAeadEnc toyAeadDec
  rw [if_neg]
  intro hc
  have hc2 : key.length :: List.take key'.length (key ++ m)
      = key'.length :: key' := hc
  injection hc2 with h1 h2
  rw [← h1, List.take_left] at h2
  exact h h2

/-- Toy UTF-8 encoder for the witness: code points of the string. -/
def toyUtf8Enc (s : String) : List Nat := s.data.map Char.toNat

/-- Toy UTF-8 decoder for the witness. -/
def toyUtf8Dec (l : List Nat) : String := ⟨l.map Char.ofNat⟩

/-- The toy UTF-8 codec roundtrips. -/
theorem toyUtf8_roundtrip (s : String) : toyUtf8Dec (toyUtf8Enc s) = s := by
  unfold toyUtf8Enc toyUtf8Dec
  rw [List.map_map]
  have : (Char.ofNat ∘ Char.toNat) = id := by
    funext c
    exact Char.ofNat_toNat c
  rw [this, List.map_id]

/-- Toy binary-to-text codec for the witness: each byte `n` becomes `n`
repetitions of `a` followed by a `b` separator (injective on all of
`List Nat`). -/
def unaryEncode (l : List Nat) : String :=
  ⟨l.flatMap (fun n => List.replicate n 'a' ++ ['b'])⟩

/-- Decoder state machine for `unaryEncode`: count `a`s, emit on `b`. -/
def unaryDecodeAux : List Char → Nat → List Nat
  | [], _ => []
  | c :: rest, acc =>
    if c = 'b' then acc :: unaryDecodeAux rest 0 else unaryDecodeAux rest (acc + 1)

/-- Inverse of `unaryEncode`. -/
def unaryDecode (s : String) : List Nat := unaryDecodeAux s.data 0

/-- Decoding one unary block yields its count plus the running
accumulator. -/
theorem unaryDecodeAux_replicate (n : Nat) (acc : Nat) (rest : List Char) :
    unaryDecodeAux (List.replicate n 'a' ++ 'b' :: rest) acc
      = (acc + n) :: unaryDecodeAux rest 0 := by
  induction n generalizing acc with
  | zero => simp [unaryDecodeAux]
  | succ m ih =>
    rw [List.replicate_succ, List.cons_append]
    show unaryDecodeAux ('a' :: (List.replicate m 'a' ++ 'b' :: rest)) acc = _
    rw [unaryDecodeAux, if_neg (by decide), ih (acc + 1)]
    congr 1
    omega

/-- The toy binary-to-text codec roundtrips on every byte list. -/
theorem unary_roundtrip (l : List Nat) : unaryDecode (unaryEncode l) = l := by
  induction l with
  | nil => rfl
  | cons n rest ih =>
    unfold unaryDecode unaryEncode at ih ⊢
    show unaryDecodeAux ((n :: rest).flatMap (fun n => List.replicate n 'a' ++ ['b'])) 0 = _
    rw [List.flatMap_cons, List.append_assoc, List.singleton_append,
      unaryDecodeAux_replicate]
    rw [Nat.zero_add]
    exact congrArg (n :: ·) ih

/-- The toy platform bundle for the C6 witness. -/
def toyCrypto : PlatformCrypto :=
  { sha256 := toyHash
    aesGcmEncrypt := toyAeadEnc
    aesGcmDecrypt := toyAeadDec
    utf8Encode := toyUtf8Enc
    utf8Decode := toyUtf8Dec
    b64Encode := unaryEncode
    b64Decode := unaryDecode }

theorem encrypt_decrypt_roundtrip_witness :
    decrypt toyCrypto (encrypt toyCrypto "credential-json" "a" (List.replicate 12 0)) "a"
      = some "credential-json" ∧
    decrypt toyCrypto (encrypt toyCrypto "credential-json" "a" (List.replicate 12 0)) "b"
      = none ∧
    getLinearTokensModel toyCrypto (fun _ => none)
      (some (encrypt toyCrypto "credential-json" "a" (List.replicate 12 0))) "b"
      = none :=
  encrypt_decrypt_roundtrip toyCrypto (fun _ => none) "credential-json" "a" "b"
    (List.replicate 12 0) unary_roundtrip toyUtf8_roundtrip (by simp)
    toyAead_roundtrip toyAead_wrongKey (by decide)
